import Mathlib

/-! Verification development for the book-catalog repository: a REST server
(rest_server/server.py) and a gRPC server (grpc_server/server.py) share one
JSON backing file, books.json. Each server loads the whole file, computes
the next identifier, appends the new record and rewrites the file.

The backing file is modelled as `Option (List Book)`: `none` when books.json
does not exist on disk, `some bs` when the file holds the JSON array `bs`.
A second, richer disk model with explicit I/O failures appears further down
for the persistence-failure analysis, and an interleaving model captures two
unsynchronized concurrent add calls. -/

namespace BookCatalog

/-- One catalog record, as stored in books.json and exchanged by both
servers: fields `id`, `title`, `author`, `year`. -/
structure Book where
  id : Int
  title : String
  author : String
  year : Int
deriving Repr, DecidableEq

/-- The shared backing file books.json: `none` when the file does not exist,
`some bs` when it contains the JSON array of records `bs`. -/
abbrev FileState := Option (List Book)

/-- Model of Python's builtin `max(iterable, default=0)` as used by both
servers: the default `0` is used only when the iterable is empty. -/
def pyMaxD0 : List Int → Int
  | [] => 0
  | x :: xs => xs.foldl max x

namespace GrpcServer

/-- grpc_server/server.py `load_books`: returns the empty list when the file
does not exist, otherwise the parsed JSON array. -/
def load_books : FileState → List Book
  | none => []
  | some books => books

/-- grpc_server/server.py `save_books`: opens books.json for writing
(creating or replacing it) and dumps the list as JSON. -/
def save_books (books : List Book) : FileState :=
  some books

/-- The ListBooksResponse protobuf message. -/
structure ListBooksResponse where
  books : List Book
deriving Repr, DecidableEq

/-- The AddBookResponse protobuf message. -/
structure AddBookResponse where
  book : Book
deriving Repr, DecidableEq

/-- grpc_server/server.py `BookCatalogServicer.ListBooks`: load the books
and convert each JSON dict into a protobuf Book message. Reading never
writes the file, so the handler returns the file state unchanged. -/
def ListBooks (db : FileState) : ListBooksResponse × FileState :=
  let books := load_books db
  let pb_books := books.map (fun b => Book.mk b.id b.title b.author b.year)
  (ListBooksResponse.mk pb_books, db)

/-- grpc_server/server.py `BookCatalogServicer.AddBook`: load the books,
compute `new_id = max((b.id for b in books), default=0) + 1`, build the new
record from the request fields, append it and save, then return the created
book rebuilt as a protobuf message. -/
def AddBook (db : FileState) (title author : String) (year : Int) :
    AddBookResponse × FileState :=
  let books := load_books db
  let new_id := pyMaxD0 (books.map (fun b => b.id)) + 1
  let book : Book := Book.mk new_id title author year
  let books2 := books ++ [book]
  let db2 := save_books books2
  (AddBookResponse.mk (Book.mk book.id book.title book.author book.year), db2)

end GrpcServer

namespace RestServer

/-- rest_server/server.py `load_books`: identical to the gRPC server's copy;
returns the empty list when the file does not exist. -/
def load_books : FileState → List Book
  | none => []
  | some books => books

/-- rest_server/server.py `save_books`: identical to the gRPC server's copy;
replaces books.json with the JSON dump of the list. -/
def save_books (books : List Book) : FileState :=
  some books

/-- rest_server/server.py `list_books` (GET /books): `jsonify(load_books())`.
Returns the loaded array; the file state is untouched. -/
def list_books (db : FileState) : List Book × FileState :=
  (load_books db, db)

/-- rest_server/server.py `add_book` (POST /books): parse the JSON body
(fields `title`, `author`, `year`), load the books, compute
`new_id = max((b.id for b in books), default=0) + 1`, append the new record,
save, and return the created record with HTTP status 201. -/
def add_book (db : FileState) (title author : String) (year : Int) :
    (Book × Nat) × FileState :=
  let books := load_books db
  let new_id := pyMaxD0 (books.map (fun b => b.id)) + 1
  let book : Book := Book.mk new_id title author year
  let books2 := books ++ [book]
  let db2 := save_books books2
  ((book, 201), db2)

end RestServer

/-- One client-visible operation against the shared store, through either
front-end. -/
inductive Op where
  | grpcList
  | restList
  | grpcAdd (title author : String) (year : Int)
  | restAdd (title author : String) (year : Int)
deriving Repr, DecidableEq

/-- Effect of one operation on the shared backing file. -/
def stepOp (db : FileState) : Op → FileState
  | .grpcList => (GrpcServer.ListBooks db).2
  | .restList => (RestServer.list_books db).2
  | .grpcAdd t a y => (GrpcServer.AddBook db t a y).2
  | .restAdd t a y => (RestServer.add_book db t a y).2

/-- Effect of a sequence of operations, run left to right. -/
def runOps (db : FileState) (ops : List Op) : FileState :=
  ops.foldl stepOp db

/-! Helper lemmas about `pyMaxD0` and the two servers. -/

/-- The seed and every list element are bounded by the running `foldl max`. -/
theorem le_foldl_max (l : List Int) (a : Int) :
    a ≤ l.foldl max a ∧ ∀ x ∈ l, x ≤ l.foldl max a := by
  induction l generalizing a with
  | nil => simp
  | cons y ys ih =>
    have h := ih (max a y)
    refine ⟨le_trans (le_max_left a y) h.1, ?_⟩
    intro x hx
    rcases List.mem_cons.mp hx with rfl | hx
    · exact le_trans (le_max_right a x) h.1
    · exact h.2 x hx

/-- `pyMaxD0` bounds every element of the list. -/
theorem mem_le_pyMaxD0 (l : List Int) (x : Int) (hx : x ∈ l) : x ≤ pyMaxD0 l := by
  cases l with
  | nil => cases hx
  | cons a xs =>
    rcases List.mem_cons.mp hx with rfl | hx
    · exact (le_foldl_max xs x).1
    · exact (le_foldl_max xs a).2 x hx

/-- A `foldl max` is either the seed or one of the list elements. -/
theorem foldl_max_mem (l : List Int) (a : Int) :
    l.foldl max a = a ∨ l.foldl max a ∈ l := by
  induction l generalizing a with
  | nil => left; rfl
  | cons y ys ih =>
    rcases ih (max a y) with h | h
    · rcases max_choice a y with hm | hm
      · left; rw [List.foldl_cons, h, hm]
      · right
        rw [List.foldl_cons, h, hm]
        exact List.mem_cons_self y ys
    · right; exact List.mem_cons_of_mem y h

/-- On a nonempty list, `pyMaxD0` is attained by one of the elements. -/
theorem pyMaxD0_mem (l : List Int) (h : l ≠ []) : pyMaxD0 l ∈ l := by
  cases l with
  | nil => exact absurd rfl h
  | cons a xs =>
    show xs.foldl max a ∈ a :: xs
    rcases foldl_max_mem xs a with h2 | h2
    · rw [h2]; exact List.mem_cons_self a xs
    · exact List.mem_cons_of_mem a h2

/-- The two servers' `load_books` functions are line-for-line duplicates. -/
theorem rest_load_eq_grpc_load (db : FileState) :
    RestServer.load_books db = GrpcServer.load_books db := by
  cases db <;> rfl

/-- After a gRPC `AddBook`, the stored list is the old list plus the
returned book appended at the end. -/
theorem grpc_AddBook_state (db : FileState) (t a : String) (y : Int) :
    GrpcServer.load_books (GrpcServer.AddBook db t a y).2 =
      GrpcServer.load_books db ++ [(GrpcServer.AddBook db t a y).1.book] :=
  rfl

/-- After a REST `add_book`, the stored list is the old list plus the
returned book appended at the end. -/
theorem rest_add_book_state (db : FileState) (t a : String) (y : Int) :
    RestServer.load_books (RestServer.add_book db t a y).2 =
      RestServer.load_books db ++ [(RestServer.add_book db t a y).1.1] :=
  rfl

/-- The id assigned by gRPC `AddBook` is `pyMaxD0` of the stored ids plus 1. -/
theorem grpc_AddBook_id (db : FileState) (t a : String) (y : Int) :
    (GrpcServer.AddBook db t a y).1.book.id =
      pyMaxD0 ((GrpcServer.load_books db).map (fun b => b.id)) + 1 :=
  rfl

/-- The id assigned by REST `add_book` is `pyMaxD0` of the stored ids plus 1. -/
theorem rest_add_book_id (db : FileState) (t a : String) (y : Int) :
    (RestServer.add_book db t a y).1.1.id =
      pyMaxD0 ((RestServer.load_books db).map (fun b => b.id)) + 1 :=
  rfl

/-- C1: a successful add assigns the new record the id
1 + (maximum id among existing records), or 1 when the record set is empty;
on a store containing ids {1,2,5} the next add yields id 6; and the id is
never taken from the caller (it is independent of the submitted fields). -/
theorem C1_monotonic_id_assignment (db : FileState) (t a : String) (y : Int) :
    (GrpcServer.load_books db = [] →
      (GrpcServer.AddBook db t a y).1.book.id = 1 ∧
      (RestServer.add_book db t a y).1.1.id = 1) ∧
    (∀ b ∈ GrpcServer.load_books db,
      b.id < (GrpcServer.AddBook db t a y).1.book.id) ∧
    (GrpcServer.load_books db ≠ [] →
      ∃ b ∈ GrpcServer.load_books db,
        (GrpcServer.AddBook db t a y).1.book.id = b.id + 1) ∧
    (∀ t2 a2 y2,
      (GrpcServer.AddBook db t2 a2 y2).1.book.id =
        (GrpcServer.AddBook db t a y).1.book.id ∧
      (RestServer.add_book db t2 a2 y2).1.1.id =
        (GrpcServer.AddBook db t a y).1.book.id) ∧
    (GrpcServer.AddBook
        (some [Book.mk 1 "t" "u" 0, Book.mk 2 "t" "u" 0, Book.mk 5 "t" "u" 0])
        t a y).1.book.id = 6 := by
  refine ⟨?_, ?_, ?_, ?_, ?_⟩
  · intro h
    constructor
    · rw [grpc_AddBook_id, h]; rfl
    · rw [rest_add_book_id, rest_load_eq_grpc_load, h]; rfl
  · intro b hb
    rw [grpc_AddBook_id]
    have : b.id ≤ pyMaxD0 ((GrpcServer.load_books db).map (fun b => b.id)) :=
      mem_le_pyMaxD0 _ _ (List.mem_map_of_mem _ hb)
    omega
  · intro h
    have hne : (GrpcServer.load_books db).map (fun b => b.id) ≠ [] := by
      simpa using h
    have hmem := pyMaxD0_mem _ hne
    rcases List.mem_map.mp hmem with ⟨b, hb, hbid⟩
    exact ⟨b, hb, by rw [grpc_AddBook_id, hbid]⟩
  · intro t2 a2 y2
    constructor
    · rw [grpc_AddBook_id, grpc_AddBook_id]
    · rw [rest_add_book_id, grpc_AddBook_id, rest_load_eq_grpc_load]
  · rw [grpc_AddBook_id]
    show pyMaxD0 [1, 2, 5] + 1 = 6
    decide

/-- Witness for C1: on the empty store the first add yields id 1, and on a
store with ids 1, 2, 5 the id is one more than an existing id. -/
theorem C1_witness :
    (GrpcServer.AddBook none "Clean Code" "Robert C. Martin" 2008).1.book.id = 1 ∧
    ∃ b ∈ GrpcServer.load_books
        (some [Book.mk 1 "t" "u" 0, Book.mk 2 "t" "u" 0, Book.mk 5 "t" "u" 0]),
      (GrpcServer.AddBook
          (some [Book.mk 1 "t" "u" 0, Book.mk 2 "t" "u" 0, Book.mk 5 "t" "u" 0])
          "x" "y" 3).1.book.id = b.id + 1 :=
  ⟨((C1_monotonic_id_assignment none "Clean Code" "Robert C. Martin" 2008).1 rfl).1,
   (C1_monotonic_id_assignment
      (some [Book.mk 1 "t" "u" 0, Book.mk 2 "t" "u" 0, Book.mk 5 "t" "u" 0])
      "x" "y" 3).2.2.1 (by decide)⟩

/-- Rebuilding every book as a protobuf message field-by-field is the
identity on the list of records. -/
theorem pb_map_id (books : List Book) :
    books.map (fun b => Book.mk b.id b.title b.author b.year) = books := by
  induction books with
  | nil => rfl
  | cons b bs ih => rw [List.map_cons, ih]

/-- The book list in a gRPC `ListBooks` response is exactly the stored list. -/
theorem grpc_ListBooks_books (db : FileState) :
    (GrpcServer.ListBooks db).1.books = GrpcServer.load_books db :=
  pb_map_id (GrpcServer.load_books db)

/-- C3: read-your-write — after an add returns record R through either
front-end, an immediately following list through either front-end contains R. -/
theorem C3_read_your_write (db : FileState) (t a : String) (y : Int) :
    (GrpcServer.AddBook db t a y).1.book ∈
      (GrpcServer.ListBooks (GrpcServer.AddBook db t a y).2).1.books ∧
    (GrpcServer.AddBook db t a y).1.book ∈
      (RestServer.list_books (GrpcServer.AddBook db t a y).2).1 ∧
    (RestServer.add_book db t a y).1.1 ∈
      (GrpcServer.ListBooks (RestServer.add_book db t a y).2).1.books ∧
    (RestServer.add_book db t a y).1.1 ∈
      (RestServer.list_books (RestServer.add_book db t a y).2).1 := by
  have hmem : ∀ (l : List Book) (b : Book), b ∈ l ++ [b] := fun l b =>
    List.mem_append_right l (List.mem_singleton.mpr rfl)
  refine ⟨?_, ?_, ?_, ?_⟩
  · rw [grpc_ListBooks_books, grpc_AddBook_state]
    exact hmem _ _
  · show (GrpcServer.AddBook db t a y).1.book ∈
      RestServer.load_books (GrpcServer.AddBook db t a y).2
    rw [rest_load_eq_grpc_load, grpc_AddBook_state]
    exact hmem _ _
  · rw [grpc_ListBooks_books, ← rest_load_eq_grpc_load, rest_add_book_state]
    exact hmem _ _
  · show (RestServer.add_book db t a y).1.1 ∈
      RestServer.load_books (RestServer.add_book db t a y).2
    rw [rest_add_book_state]
    exact hmem _ _

/-- C7: on every store state and input the two front-ends leave the store in
the same state, return the same record, and list the same sequence; REST
additionally reports HTTP 201 and gRPC wraps the book in a response message,
a difference of encoding only. -/
theorem C7_frontend_equivalence (db : FileState) (t a : String) (y : Int) :
    (RestServer.add_book db t a y).2 = (GrpcServer.AddBook db t a y).2 ∧
    (RestServer.add_book db t a y).1.1 = (GrpcServer.AddBook db t a y).1.book ∧
    (RestServer.add_book db t a y).1.2 = 201 ∧
    (RestServer.list_books db).1 = (GrpcServer.ListBooks db).1.books ∧
    (RestServer.list_books db).2 = (GrpcServer.ListBooks db).2 := by
  have h4 : (RestServer.list_books db).1 = (GrpcServer.ListBooks db).1.books := by
    rw [grpc_ListBooks_books]
    exact rest_load_eq_grpc_load db
  refine ⟨?_, ?_, rfl, h4, rfl⟩
  · cases db <;> rfl
  · cases db <;> rfl

/-- C8: list always succeeds, returns the full stored sequence (empty when
nothing is stored) through either front-end, and leaves the store state
unchanged. -/
theorem C8_list_read_only (db : FileState) :
    (GrpcServer.ListBooks db).2 = db ∧
    (GrpcServer.ListBooks db).1.books = GrpcServer.load_books db ∧
    (RestServer.list_books db).2 = db ∧
    (RestServer.list_books db).1 = RestServer.load_books db ∧
    (GrpcServer.ListBooks none).1.books = [] ∧
    (RestServer.list_books none).1 = [] :=
  ⟨rfl, grpc_ListBooks_books db, rfl, rfl, rfl, rfl⟩

/-- C9: when the backing file does not exist, both servers behave as an
empty catalog: list returns the empty sequence, and the first add succeeds,
assigns id 1, and creates the backing file with exactly that record. -/
theorem C9_missing_file_empty_catalog (t a : String) (y : Int) :
    (GrpcServer.ListBooks none).1.books = [] ∧
    (RestServer.list_books none).1 = [] ∧
    (GrpcServer.AddBook none t a y).1.book = Book.mk 1 t a y ∧
    (GrpcServer.AddBook none t a y).2 = some [Book.mk 1 t a y] ∧
    (RestServer.add_book none t a y).1.1 = Book.mk 1 t a y ∧
    (RestServer.add_book none t a y).2 = some [Book.mk 1 t a y] :=
  ⟨rfl, rfl, rfl, rfl, rfl, rfl⟩

/-- C10: both servers accept any title, author (empty strings included) and
any integer year without validation; the returned record and the record
appended to the store carry the submitted fields verbatim. -/
theorem C10_fields_verbatim (db : FileState) (t a : String) (y : Int) :
    (GrpcServer.AddBook db t a y).1.book.title = t ∧
    (GrpcServer.AddBook db t a y).1.book.author = a ∧
    (GrpcServer.AddBook db t a y).1.book.year = y ∧
    (RestServer.add_book db t a y).1.1.title = t ∧
    (RestServer.add_book db t a y).1.1.author = a ∧
    (RestServer.add_book db t a y).1.1.year = y ∧
    GrpcServer.load_books (GrpcServer.AddBook db t a y).2 =
      GrpcServer.load_books db ++ [(GrpcServer.AddBook db t a y).1.book] ∧
    RestServer.load_books (RestServer.add_book db t a y).2 =
      RestServer.load_books db ++ [(RestServer.add_book db t a y).1.1] :=
  ⟨rfl, rfl, rfl, rfl, rfl, rfl, rfl, rfl⟩

/-- Store invariant maintained by sequential adds from the empty store:
the stored ids are strictly increasing (hence pairwise distinct) and
strictly positive. -/
def StoreInv (books : List Book) : Prop :=
  books.Pairwise (fun b c => b.id < c.id) ∧ ∀ b ∈ books, 0 < b.id

/-- Appending a record with id `pyMaxD0 (ids) + 1` preserves the store
invariant. -/
theorem storeInv_append (books : List Book) (t a : String) (y : Int)
    (h : StoreInv books) :
    StoreInv (books ++
      [Book.mk (pyMaxD0 (books.map (fun b => b.id)) + 1) t a y]) := by
  obtain ⟨hp, hpos⟩ := h
  have hub : ∀ b ∈ books, b.id < pyMaxD0 (books.map (fun b => b.id)) + 1 := by
    intro b hb
    have h1 : b.id ≤ pyMaxD0 (books.map (fun b => b.id)) :=
      mem_le_pyMaxD0 _ _ (List.mem_map_of_mem (fun b => b.id) hb)
    omega
  have hnn : 0 ≤ pyMaxD0 (books.map (fun b => b.id)) := by
    cases books with
    | nil => exact le_refl 0
    | cons b bs =>
      have hmem : b.id ∈ (b :: bs).map (fun b => b.id) :=
        List.mem_map_of_mem (fun b => b.id) (List.mem_cons_self b bs)
      have h1 : 0 < b.id := hpos b (List.mem_cons_self b bs)
      have h2 : b.id ≤ pyMaxD0 ((b :: bs).map (fun b => b.id)) :=
        mem_le_pyMaxD0 _ _ hmem
      omega
  constructor
  · rw [List.pairwise_append]
    refine ⟨hp, List.pairwise_singleton _ _, ?_⟩
    intro b hb c hc
    rw [List.mem_singleton] at hc
    subst hc
    exact hub b hb
  · intro b hb
    rcases List.mem_append.mp hb with hb | hb
    · exact hpos b hb
    · rw [List.mem_singleton] at hb
      subst hb
      show 0 < pyMaxD0 (books.map (fun b => b.id)) + 1
      omega

/-- Every single operation preserves the store invariant. -/
theorem storeInv_stepOp (db : FileState) (op : Op)
    (h : StoreInv (GrpcServer.load_books db)) :
    StoreInv (GrpcServer.load_books (stepOp db op)) := by
  cases op with
  | grpcList => exact h
  | restList => exact h
  | grpcAdd t a y =>
    show StoreInv (GrpcServer.load_books (GrpcServer.AddBook db t a y).2)
    rw [grpc_AddBook_state]
    exact storeInv_append _ t a y h
  | restAdd t a y =>
    have h2 := storeInv_append (GrpcServer.load_books db) t a y h
    show StoreInv (RestServer.load_books db ++
      [Book.mk (pyMaxD0 ((RestServer.load_books db).map (fun b => b.id)) + 1)
        t a y])
    rw [rest_load_eq_grpc_load]
    exact h2

/-- Every sequence of operations preserves the store invariant. -/
theorem storeInv_runOps (db : FileState) (ops : List Op)
    (h : StoreInv (GrpcServer.load_books db)) :
    StoreInv (GrpcServer.load_books (runOps db ops)) := by
  induction ops generalizing db with
  | nil => exact h
  | cons op ops ih => exact ih (stepOp db op) (storeInv_stepOp db op h)

/-- C4: starting from the empty store, after every sequence of sequential
operations (in particular every sequence of successful add calls, through
either front-end) the stored ids are pairwise distinct and strictly
positive. -/
theorem C4_ids_distinct_positive (db0 : FileState)
    (h : GrpcServer.load_books db0 = []) (ops : List Op) :
    (GrpcServer.load_books (runOps db0 ops)).Pairwise
      (fun b c => b.id ≠ c.id) ∧
    ∀ b ∈ GrpcServer.load_books (runOps db0 ops), 0 < b.id := by
  have hinv : StoreInv (GrpcServer.load_books db0) := by
    rw [h]
    exact ⟨List.Pairwise.nil, fun b hb => absurd hb (List.not_mem_nil b)⟩
  have h2 := storeInv_runOps db0 ops hinv
  exact ⟨h2.1.imp (fun hlt => ne_of_lt hlt), h2.2⟩

/-- Witness for C4 at the absent file and two concrete adds, one through
each front-end. -/
theorem C4_witness :
    (GrpcServer.load_books
        (runOps none [Op.grpcAdd "a" "b" 1, Op.restAdd "c" "d" 2])).Pairwise
      (fun b c => b.id ≠ c.id) ∧
    ∀ b ∈ GrpcServer.load_books
        (runOps none [Op.grpcAdd "a" "b" 1, Op.restAdd "c" "d" 2]),
      0 < b.id :=
  C4_ids_distinct_positive none rfl [Op.grpcAdd "a" "b" 1, Op.restAdd "c" "d" 2]

/-- One operation only ever extends the stored list at its end. -/
theorem stepOp_extends (db : FileState) (op : Op) :
    ∃ tl, GrpcServer.load_books (stepOp db op) =
      GrpcServer.load_books db ++ tl := by
  cases op with
  | grpcList => exact ⟨[], (List.append_nil _).symm⟩
  | restList => exact ⟨[], (List.append_nil _).symm⟩
  | grpcAdd t a y => exact ⟨_, grpc_AddBook_state db t a y⟩
  | restAdd t a y =>
    have h := rest_add_book_state db t a y
    rw [rest_load_eq_grpc_load, rest_load_eq_grpc_load] at h
    exact ⟨_, h⟩

/-- A sequence of operations only ever extends the stored list at its end. -/
theorem runOps_extends (db : FileState) (ops : List Op) :
    ∃ tl, GrpcServer.load_books (runOps db ops) =
      GrpcServer.load_books db ++ tl := by
  induction ops generalizing db with
  | nil => exact ⟨[], (List.append_nil _).symm⟩
  | cons op ops ih =>
    obtain ⟨t1, h1⟩ := stepOp_extends db op
    obtain ⟨t2, h2⟩ := ih (stepOp db op)
    refine ⟨t1 ++ t2, ?_⟩
    show GrpcServer.load_books (runOps (stepOp db op) ops) =
      GrpcServer.load_books db ++ (t1 ++ t2)
    rw [h2, h1, List.append_assoc]

/-- C6: the store is append-only — after any sequence of operations the
previous contents are an unchanged prefix of the new contents, every
previously stored record is still present with the same fields, and a
single add appends exactly one record at the end. -/
theorem C6_append_only (db : FileState) :
    (∀ ops : List Op, ∃ tl,
      GrpcServer.load_books (runOps db ops) =
        GrpcServer.load_books db ++ tl) ∧
    (∀ ops : List Op, ∀ b ∈ GrpcServer.load_books db,
      b ∈ GrpcServer.load_books (runOps db ops)) ∧
    (∀ t a y, GrpcServer.load_books (GrpcServer.AddBook db t a y).2 =
      GrpcServer.load_books db ++ [(GrpcServer.AddBook db t a y).1.book]) ∧
    (∀ t a y, RestServer.load_books (RestServer.add_book db t a y).2 =
      RestServer.load_books db ++ [(RestServer.add_book db t a y).1.1]) := by
  refine ⟨runOps_extends db, ?_, grpc_AddBook_state db, rest_add_book_state db⟩
  intro ops b hb
  obtain ⟨tl, htl⟩ := runOps_extends db ops
  rw [htl]
  exact List.mem_append_left tl hb

/-! Concurrency model. Each add handler in the source performs
`load_books`, computes the new id, then `save_books`, with no lock of any
kind: the gRPC server serves requests on a 10-worker thread pool and the
REST server is a separate process writing the same file. An interleaving of
two concurrent adds is therefore any ordering of the two loads and the two
saves; `save_books` rewrites the whole file, ignoring its current content,
so a later save simply replaces an earlier one. -/

/-- Two concurrent add calls under the schedule load1, load2, save1, save2:
both handlers execute `load_books` before either executes `save_books`.
Returns the two records handed back to the two clients and the final file
state; the file written by the first save (bound to an unused variable, as
the second save overwrites the file wholesale) is lost. -/
def twoAddsBothLoadFirst (db : FileState) (t1 a1 : String) (y1 : Int)
    (t2 a2 : String) (y2 : Int) : (Book × Book) × FileState :=
  let books1 := GrpcServer.load_books db
  let books2 := GrpcServer.load_books db
  let book1 : Book := Book.mk (pyMaxD0 (books1.map (fun b => b.id)) + 1) t1 a1 y1
  let book2 : Book := Book.mk (pyMaxD0 (books2.map (fun b => b.id)) + 1) t2 a2 y2
  let _db1 := GrpcServer.save_books (books1 ++ [book1])
  let db2 := GrpcServer.save_books (books2 ++ [book2])
  ((book1, book2), db2)

/-- C2 fails on the code: from the empty store, two concurrent adds whose
loads both precede the saves return the same id 1 to both clients, and the
final store holds a single record — the first add's record is lost. The
claim requires two records with distinct contiguous ids and no loss. -/
theorem C2_lost_update_counterexample :
    (twoAddsBothLoadFirst (some []) "Book One" "Alice" 2001
        "Book Two" "Bob" 2002).1.1.id = 1 ∧
    (twoAddsBothLoadFirst (some []) "Book One" "Alice" 2001
        "Book Two" "Bob" 2002).1.2.id = 1 ∧
    GrpcServer.load_books
        (twoAddsBothLoadFirst (some []) "Book One" "Alice" 2001
          "Book Two" "Bob" 2002).2 =
      [Book.mk 1 "Book Two" "Bob" 2002] ∧
    (twoAddsBothLoadFirst (some []) "Book One" "Alice" 2001
        "Book Two" "Bob" 2002).1.1 ∉
      GrpcServer.load_books
        (twoAddsBothLoadFirst (some []) "Book One" "Alice" 2001
          "Book Two" "Bob" 2002).2 := by
  refine ⟨rfl, rfl, rfl, ?_⟩
  decide

/-! Persistence-failure model for the gRPC and REST `save_books`. In the
source, `save_books` is `open(DB_PATH, "w")` followed by `json.dump`:
opening with mode "w" truncates the file before any content is written, and
neither server catches exceptions around it. The disk is modelled with an
extra truncated state, and the failure point is injected explicitly. -/

/-- Backing-file states when I/O can fail: absent, a valid JSON array, or
a truncated/partly written file left behind by an interrupted dump. -/
inductive DiskState where
  | absent
  | valid (books : List Book)
  | truncated
deriving Repr, DecidableEq

/-- Exceptions the Python code raises: OSError and friends from open or
write, and JSONDecodeError from `json.load` on a truncated file. -/
inductive PyExc where
  | ioError
  | jsonDecodeError
deriving Repr, DecidableEq

/-- Where, if anywhere, persistence fails during one `save_books` call. -/
inductive SaveOutcome where
  | ok
  | openFails
  | writeFails
deriving Repr, DecidableEq

/-- `load_books` with I/O made explicit: a missing file yields the empty
list, a valid file parses, and `json.load` raises on a truncated file. -/
def load_books_io : DiskState → Except PyExc (List Book)
  | .absent => .ok []
  | .valid books => .ok books
  | .truncated => .error .jsonDecodeError

/-- `save_books` with I/O made explicit. If `open(DB_PATH, "w")` itself
fails the disk is untouched; if open succeeds but the dump fails the file
has already been truncated; on success the file holds the new list. -/
def save_books_io (books : List Book) (o : SaveOutcome) (d : DiskState) :
    Except PyExc Unit × DiskState :=
  match o with
  | .ok => (.ok (), .valid books)
  | .openFails => (.error .ioError, d)
  | .writeFails => (.error .ioError, .truncated)

/-- The add handler with persistence failures made explicit: exceptions
from `load_books` or `save_books` propagate out of the handler uncaught, so
no record is returned on failure. -/
def add_book_io (d : DiskState) (t a : String) (y : Int) (o : SaveOutcome) :
    Except PyExc Book × DiskState :=
  match load_books_io d with
  | .error e => (.error e, d)
  | .ok books =>
    let new_id := pyMaxD0 (books.map (fun b => b.id)) + 1
    let book := Book.mk new_id t a y
    match save_books_io (books ++ [book]) o d with
    | (.ok _, d2) => (.ok book, d2)
    | (.error e, d2) => (.error e, d2)

/-- The list handler with I/O made explicit: read-only. -/
def list_books_io (d : DiskState) : Except PyExc (List Book) × DiskState :=
  (load_books_io d, d)

/-- C5 fails on the code: with one record on disk, a persistence failure
during `json.dump` (mode "w" having already truncated books.json) makes the
add raise without returning a record, but the backing file is left
truncated: the next list does not observe the pre-add state, it fails on
the corrupted file. Only a failure of `open` itself leaves the previous
state intact, and no dedicated StorageUnavailable error exists — the bare
exception escapes the handler. -/
theorem C5_partial_write_visible :
    (add_book_io (.valid [Book.mk 1 "T" "A" 2000]) "U" "B" 2001
        .writeFails).1 = .error .ioError ∧
    (add_book_io (.valid [Book.mk 1 "T" "A" 2000]) "U" "B" 2001
        .writeFails).2 = .truncated ∧
    (list_books_io
        (add_book_io (.valid [Book.mk 1 "T" "A" 2000]) "U" "B" 2001
          .writeFails).2).1 = .error .jsonDecodeError ∧
    (add_book_io (.valid [Book.mk 1 "T" "A" 2000]) "U" "B" 2001
        .openFails).2 = .valid [Book.mk 1 "T" "A" 2000] :=
  ⟨rfl, rfl, rfl, rfl⟩

end BookCatalog
